import Mathlib

/-!
# Verification of `simple_httpclient` (`pkg/http.go`)

A shallow embedding of the Go HTTP client wrapper in `src/pkg/http.go`
(the version with query-parameter support, the one the claims cite):
the `Client` data model, URL resolution (`getURL`), query encoding
(Go's `net/url` `Values.Encode` with `QueryEscape`), the `Do`
execution path, response-header merging and response-time computation.

Modelling conventions:
* Go `map[string]string` values are association lists in one concrete
  iteration order; map semantics (unique keys) become explicit `Nodup`
  hypotheses on the key list where the source relies on them.
* `time.Time` values are `Int` nanoseconds since an epoch;
  `time.Duration` is `Int` nanoseconds.  Go's `Duration.Milliseconds`
  divides by `1e6` truncating toward zero, which is `Int.tdiv`.
* The fasthttp transport (`Client.DoTimeout`) is an explicit function
  from the submitted carrier request and timeout to `Except ε` of a
  transport-level response; `context.Context` is an arbitrary type
  parameter, mirroring that `Do` receives `ctx` and never reads it.
* fasthttp's request carrier stores the content type separately from
  the other headers; `Header.Set` with the content-type header name
  routes to that slot (case canonicalisation of other header names is
  not modelled; keys are compared verbatim).
-/

namespace SimpleHTTP

/-- Go `strings.HasPrefix s pre`: byte-wise prefix test.  The prefixes the
source uses ("http", "https") are ASCII, so the byte-wise test coincides
with the character-wise prefix test modelled here. -/
def hasPrefix (s pre : String) : Bool :=
  pre.data.isPrefixOf s.data

/-- `HTTPMethod` is a Go string type. -/
def HTTPMethod := String

instance : DecidableEq HTTPMethod := fun a b => String.decEq a b

/-- `POST HTTPMethod = "POST"` -/
def POST : HTTPMethod := "POST"

/-- `GET HTTPMethod = "GET"` -/
def GET : HTTPMethod := "GET"

/-- `PUT HTTPMethod = "PUT"` -/
def PUT : HTTPMethod := "PUT"

/-- `PATH HTTPMethod = "POST"` — the source assigns the wire value
`"POST"` to the constant named `PATH`. -/
def PATH : HTTPMethod := "POST"

/-- `DELETE HTTPMethod = "DELETE"` -/
def DELETE : HTTPMethod := "DELETE"

/-- Go struct `Request` (query-parameter version).  `Headers` and `Query`
are `map[string]string`, modelled as association lists in iteration
order. -/
structure Request where
  URL : String
  Method : HTTPMethod
  ContentType : String
  Headers : List (String × String)
  Query : List (String × String)
  Body : String
deriving DecidableEq

/-- Go struct `Response`. -/
structure Response where
  Body : String
  Headers : List (String × String)
  StatusCode : Int
  Time : Int
deriving DecidableEq

/-- Go struct `Client`: configuration plus the transport handle.  The
`fasthttp.Client` handle is represented by the one field of it the
source touches, `MaxIdemponentCallAttempts`. -/
structure Client where
  maxIdemponentCallAttempts : Int
  baseURL : String
  contentType : String
  timeout : Int
deriving DecidableEq

/-- Go struct `NewClientOptions`. -/
structure NewClientOptions where
  BaseURL : String
  DefaultContentType : String
  Timeout : Int
  Attemps : Int
  TLSCert : String
deriving DecidableEq

/-- Go struct `DoOptions`. -/
structure DoOptions where
  StartTime : Option Int
  Request : Request
deriving DecidableEq

/-- `New(opts ...*NewClientOptions)`: the variadic options slice is
modelled as `Option NewClientOptions` (`none` = no argument passed).
The default struct is built first and replaced wholesale by `opts[0]`
when an argument is present. -/
def New (opts : Option NewClientOptions) : Client :=
  let defOpt : NewClientOptions :=
    { BaseURL := ""
      DefaultContentType := "application/json"
      Timeout := 30 * 1000000000
      Attemps := 5
      TLSCert := "" }
  let opt := match opts with
    | some o => o
    | none => defOpt
  { maxIdemponentCallAttempts := opt.Attemps
    baseURL := opt.BaseURL
    contentType := opt.DefaultContentType
    timeout := opt.Timeout }

/-- `Client.getURL`: a request URL that starts with `"http"` (or
`"https"`, a redundant second test) is used verbatim; otherwise the
base URL is prepended by plain concatenation. -/
def getURL (h : Client) (rURL : String) : String :=
  if hasPrefix rURL "http" || hasPrefix rURL "https" then rURL
  else h.baseURL ++ rURL

/-- Go `url.QueryEscape` byte classification for query components
(`shouldEscape(c, encodeQueryComponent) = false`): ASCII alphanumerics
and `-`, `.`, `_`, `~` are kept unescaped. -/
def isUnreservedQueryByte (b : Nat) : Bool :=
  (0x30 ≤ b && b ≤ 0x39) || (0x41 ≤ b && b ≤ 0x5A) || (0x61 ≤ b && b ≤ 0x7A) ||
  b == 0x2D || b == 0x2E || b == 0x5F || b == 0x7E

/-- Upper-case hexadecimal digit, as Go's `"0123456789ABCDEF"[n]`. -/
def upperHexDigit (n : Nat) : Char :=
  "0123456789ABCDEF".data.getD n '0'

/-- One byte of Go query escaping: unreserved bytes are kept, space
becomes `+`, everything else is percent-encoded with upper-case hex. -/
def escapeQueryByte (b : Nat) : String :=
  if isUnreservedQueryByte b then String.singleton (Char.ofNat b)
  else if b == 0x20 then "+"
  else "%" ++ String.singleton (upperHexDigit (b / 16)) ++
    String.singleton (upperHexDigit (b % 16))

/-- The UTF-8 bytes of a string, as naturals (Go strings are byte
slices). -/
def utf8Bytes (s : String) : List Nat :=
  (s.data.flatMap String.utf8EncodeChar).map (fun b => b.toNat)

/-- Go `url.QueryEscape`: escape every UTF-8 byte in turn, appending to
a buffer. -/
def queryEscape (s : String) : String :=
  (utf8Bytes s).foldl (fun acc b => acc ++ escapeQueryByte b) ""

/-- `url.Values.Add k v`: append `v` to the slice stored under `k`,
creating the entry when absent.  `url.Values` is a Go map from keys to
value slices; it is modelled as an association list whose entry order
is irrelevant because `Encode` sorts the keys. -/
def valuesAdd (vs : List (String × List String)) (k v : String) :
    List (String × List String) :=
  if (vs.find? (fun kv => kv.1 == k)).isSome then
    vs.map (fun kv => if kv.1 == k then (kv.1, kv.2 ++ [v]) else kv)
  else vs ++ [(k, [v])]

/-- The `url.Values` built by `Do`'s loop
`for k, v := range opts.Request.Query { qp.Add(k, fmt.Sprint(v)) }`
(`fmt.Sprint` of a string is the string itself). -/
def buildValues (q : List (String × String)) : List (String × List String) :=
  q.foldl (fun vs kv => valuesAdd vs kv.1 kv.2) []

/-- Key order used by `Encode`'s `sort.Strings`: byte-wise string
order, which on UTF-8 data equals the code-point order of Lean's
`String` order. -/
def keyLE (a b : String × List String) : Prop := a.1 ≤ b.1

instance : DecidableRel keyLE := fun a b => inferInstanceAs (Decidable (a.1 ≤ b.1))

instance : IsTotal (String × List String) keyLE := ⟨fun a b => le_total a.1 b.1⟩

instance : IsTrans (String × List String) keyLE := ⟨fun _ _ _ => le_trans⟩

/-- Strict version of `keyLE`, used to show the sorted entry list is
uniquely determined when the keys are distinct. -/
def keyLT (a b : String × List String) : Prop := a.1 < b.1

instance : IsAntisymm (String × List String) keyLT :=
  ⟨fun _ _ h1 h2 => absurd h1 (not_lt.mpr (le_of_lt h2))⟩

/-- Separator-joined concatenation.  Go's `Encode` writes the separator
before every piece once the buffer is non-empty; every piece it writes
contains `=` and is non-empty, so this equals joining with the
separator. -/
def joinSep (sep : String) : List String → String
  | [] => ""
  | [a] => a
  | a :: b :: t => a ++ sep ++ joinSep sep (b :: t)

/-- One encoded `key=value` piece of `url.Values.Encode`. -/
def encodedPair (kv : String × String) : String :=
  queryEscape kv.1 ++ "=" ++ queryEscape kv.2

/-- `url.Values.Encode`: sort the keys, then for each key in order emit
`escapedKey=escapedValue` for each of its values, `&`-separated. -/
def valuesEncode (vs : List (String × List String)) : String :=
  joinSep "&"
    ((List.insertionSort keyLE vs).flatMap
      (fun kv => kv.2.map (fun v => queryEscape kv.1 ++ "=" ++ queryEscape v)))

/-- The query pairs in the sorted order `Encode` emits them. -/
def sortedQueryPairs (q : List (String × String)) : List (String × String) :=
  (List.insertionSort keyLE (buildValues q)).flatMap
    (fun kv => kv.2.map (fun v => (kv.1, v)))

/-- Number of `?` characters in a string. -/
def countQMark (s : String) : Nat := s.data.count '?'

/-- The final URL `Do` computes: `getURL`, then, when the built
`url.Values` is non-empty, `fmt.Sprintf("%s?%s", u, qp.Encode())`. -/
def doFinalURL (h : Client) (rURL : String) (query : List (String × String)) :
    String :=
  let u := getURL h rURL
  let qp := buildValues query
  if qp.length > 0 then u ++ "?" ++ valuesEncode qp else u

/-- The fasthttp request carrier, restricted to the state the source
sets: URI, method, content type, body and the explicitly set headers.
fasthttp stores the content type in its own slot; `Header.Set` with
key `"Content-Type"` writes that slot. -/
structure CarrierRequest where
  uri : String
  method : String
  contentTypeHeader : String
  body : String
  otherHeaders : List (String × String)
deriving DecidableEq

/-- Go map assignment `m[k] = v` on an association list: overwrite the
entry for `k` when present, append it otherwise. -/
def mapInsert : List (String × String) → String → String → List (String × String)
  | [], k, v => [(k, v)]
  | kv :: rest, k, v =>
      if kv.1 == k then (k, v) :: rest else kv :: mapInsert rest k v

/-- Go map read `m[k]` on an association list. -/
def mapLookup (m : List (String × String)) (k : String) : Option String :=
  (m.find? (fun kv => kv.1 == k)).map (fun kv => kv.2)

/-- fasthttp `RequestHeader.Set k v`: the content-type header name
routes to the dedicated content-type slot, every other key overwrites
its entry in the header map. -/
def headerSet (c : CarrierRequest) (k v : String) : CarrierRequest :=
  if k == "Content-Type" then { c with contentTypeHeader := v }
  else { c with otherHeaders := mapInsert c.otherHeaders k v }

/-- What `Do` hands to `fasthttp.Client.DoTimeout`: the assembled
carrier request and the timeout `h.timeout`. -/
structure Submission where
  request : CarrierRequest
  timeout : Int
deriving DecidableEq

/-- The transport-level response fasthttp fills in on success:
status code, body, and the response headers in the order
`ResponseHeader.VisitAll` visits them. -/
structure TransportResponse where
  statusCode : Int
  body : String
  headers : List (String × String)
deriving DecidableEq

/-- `mergeResponseHeaders`: visit every response header in order and
assign it into a fresh `map[string]string`. -/
def mergeResponseHeaders (hs : List (String × String)) : List (String × String) :=
  hs.foldl (fun m kv => mapInsert m kv.1 kv.2) []

/-- `getResponseTime(start, end)` = `end.Sub(*start).Milliseconds()`:
the nanosecond difference divided by `1e6`, truncating toward zero. -/
def getResponseTime (start finish : Int) : Int :=
  Int.tdiv (finish - start) 1000000

/-- The carrier request and timeout `Do` submits, assembled from the
request: final URL, method, effective content type (request override
when non-empty, else the client default), body, then every
`Request.Headers` entry applied with `Header.Set`. -/
def doSubmission (h : Client) (r : Request) : Submission :=
  let u := doFinalURL h r.URL r.Query
  let cType := if r.ContentType != "" then r.ContentType else h.contentType
  let req0 : CarrierRequest :=
    { uri := u
      method := r.Method
      contentTypeHeader := cType
      body := r.Body
      otherHeaders := [] }
  let req1 := r.Headers.foldl (fun c kv => headerSet c kv.1 kv.2) req0
  { request := req1, timeout := h.timeout }

/-- Everything observable about one `Do` call: the caller's `DoOptions`
as left after the call (the struct is passed by pointer and may be
written), the transport submission made, and the returned value. -/
structure DoResult (ε : Type) where
  optsAfter : DoOptions
  submission : Submission
  result : Except ε Response

/-- `Client.Do`: replace a nil `StartTime` with the entry time, build
the carrier request, submit it with the client timeout, and on success
assemble the `Response`; on failure return the transport error as-is.
`ctx` is received and never read.  `entryNow` and `endNow` are the two
`time.Now()` readings (at entry, and after the transport returns); the
transport is the explicit `DoTimeout` collaborator. -/
def Do {Ctx ε : Type} (ctx : Ctx) (h : Client) (opts : DoOptions)
    (entryNow endNow : Int)
    (transport : Submission → Except ε TransportResponse) : DoResult ε :=
  let startTime := match opts.StartTime with
    | none => entryNow
    | some t => t
  let optsAfter : DoOptions := { opts with StartTime := some startTime }
  let sub := doSubmission h opts.Request
  match transport sub with
  | Except.error e =>
      { optsAfter := optsAfter, submission := sub, result := Except.error e }
  | Except.ok tres =>
      { optsAfter := optsAfter, submission := sub
        result := Except.ok
          { StatusCode := tres.statusCode
            Body := tres.body
            Headers := mergeResponseHeaders tres.headers
            Time := getResponseTime startTime endNow } }

end SimpleHTTP

namespace SimpleHTTP

lemma mapLookup_nil (key : String) : mapLookup [] key = none := rfl

lemma mapLookup_cons (kv : String × String) (rest : List (String × String))
    (key : String) :
    mapLookup (kv :: rest) key
      = if kv.1 == key then some kv.2 else mapLookup rest key := by
  by_cases hk : kv.1 = key
  · simp [mapLookup, List.find?_cons, hk]
  · simp [mapLookup, List.find?_cons, hk]

lemma mapLookup_mapInsert (m : List (String × String)) (k v key : String) :
    mapLookup (mapInsert m k v) key
      = if k == key then some v else mapLookup m key := by
  induction m with
  | nil =>
      by_cases hk : k = key <;> simp [mapInsert, mapLookup_cons, mapLookup_nil, hk]
  | cons kv rest ih =>
      by_cases h1 : kv.1 = k
      · rw [show mapInsert (kv :: rest) k v = (k, v) :: rest by
          simp [mapInsert, h1]]
        rw [mapLookup_cons, mapLookup_cons]
        by_cases hk : k = key
        · simp [hk]
        · have h2 : (kv.1 == key) = false := by simp [h1, hk]
          simp [hk, h2]
      · rw [show mapInsert (kv :: rest) k v = kv :: mapInsert rest k v by
          simp [mapInsert, h1]]
        rw [mapLookup_cons, ih, mapLookup_cons]
        by_cases h2 : kv.1 = key
        · have hk : (k == key) = false := by
            have hne : ¬ k = key := fun he => h1 (h2.trans he.symm)
            simp [hne]
          simp [h2, hk]
        · simp [h2]

lemma mapLookup_foldl_mapInsert (hs : List (String × String))
    (acc : List (String × String)) (key : String) :
    mapLookup (hs.foldl (fun m kv => mapInsert m kv.1 kv.2) acc) key
      = ((hs.reverse.find? (fun kv => kv.1 == key)).map (fun kv => kv.2)).or
          (mapLookup acc key) := by
  induction hs generalizing acc with
  | nil => simp
  | cons kv t ih =>
      simp only [List.foldl_cons, List.reverse_cons, List.find?_append, ih,
        mapLookup_mapInsert]
      cases hfind : List.find? (fun kv => kv.1 == key) t.reverse with
      | some w => simp
      | none =>
          simp only [Option.none_or, Option.map]
          by_cases hk : kv.1 = key
          · simp [List.find?_cons, hk]
          · simp [List.find?_cons, hk]

lemma foldl_headerSet_uri (l : List (String × String)) (c : CarrierRequest) :
    (l.foldl (fun c kv => headerSet c kv.1 kv.2) c).uri = c.uri := by
  induction l generalizing c with
  | nil => rfl
  | cons kv t ih =>
      rw [List.foldl_cons, ih]
      unfold headerSet; split <;> rfl

lemma foldl_headerSet_contentType (l : List (String × String)) (c : CarrierRequest) :
    (l.foldl (fun c kv => headerSet c kv.1 kv.2) c).contentTypeHeader
      = ((l.reverse.find? (fun kv => kv.1 == "Content-Type")).map
          (fun kv => kv.2)).getD c.contentTypeHeader := by
  induction l generalizing c with
  | nil => rfl
  | cons kv t ih =>
      rw [List.foldl_cons, ih, List.reverse_cons, List.find?_append]
      cases hfind : List.find? (fun kv => kv.1 == "Content-Type") t.reverse with
      | some w => simp
      | none =>
          simp only [Option.none_or]
          by_cases hk : kv.1 = "Content-Type"
          · simp [List.find?_cons, hk, headerSet]
          · simp [List.find?_cons, hk, headerSet]

lemma Do_submission {Ctx ε : Type} (ctx : Ctx) (h : Client) (opts : DoOptions)
    (entryNow endNow : Int)
    (transport : Submission → Except ε TransportResponse) :
    (Do ctx h opts entryNow endNow transport).submission
      = doSubmission h opts.Request := by
  unfold Do
  cases ht : transport (doSubmission h opts.Request) <;> simp [ht]

lemma Do_optsAfter {Ctx ε : Type} (ctx : Ctx) (h : Client) (opts : DoOptions)
    (entryNow endNow : Int)
    (transport : Submission → Except ε TransportResponse) :
    (Do ctx h opts entryNow endNow transport).optsAfter
      = { opts with
          StartTime := some (match opts.StartTime with
            | none => entryNow
            | some t => t) } := by
  unfold Do
  cases ht : transport (doSubmission h opts.Request) <;> simp [ht]

lemma hasPrefix_http_of_https {s : String} (h : hasPrefix s "https" = true) :
    hasPrefix s "http" = true := by
  simp only [hasPrefix, List.isPrefixOf_iff_prefix] at h ⊢
  have hp : ("http".data) <+: ("https".data) := ⟨['s'], rfl⟩
  exact hp.trans h

lemma getURL_eq_of_hasPrefix {h : Client} {rURL : String}
    (hp : hasPrefix rURL "http" = true) : getURL h rURL = rURL := by
  simp [getURL, hp]

lemma getURL_eq_of_not_hasPrefix {h : Client} {rURL : String}
    (hp : hasPrefix rURL "http" = false) :
    getURL h rURL = h.baseURL ++ rURL := by
  have hps : hasPrefix rURL "https" = false := by
    cases hq : hasPrefix rURL "https" with
    | false => rfl
    | true => rw [hasPrefix_http_of_https hq] at hp; cases hp
  simp [getURL, hp, hps]

end SimpleHTTP

namespace SimpleHTTP

/-- C1: a request URL beginning with the four characters "http" is
returned verbatim by `getURL` whatever the base URL; any other request
URL is the base URL concatenated with the request URL, with no
separator handling. -/
theorem getURL_spec (h : Client) (rURL : String) :
    (hasPrefix rURL "http" = true → getURL h rURL = rURL) ∧
    (hasPrefix rURL "http" = false → getURL h rURL = h.baseURL ++ rURL) :=
  ⟨fun hp => getURL_eq_of_hasPrefix hp,
   fun hp => getURL_eq_of_not_hasPrefix hp⟩

/-- C1 witness: a non-scheme string starting with "http" is kept
verbatim even with a non-empty base URL, and a relative path is
concatenated with no separator inserted. -/
theorem getURL_spec_witness :
    getURL (New (some { BaseURL := "https://api.example.com"
                        DefaultContentType := ""
                        Timeout := 0, Attemps := 0, TLSCert := "" }))
        "httpfoo" = "httpfoo" ∧
    getURL (New (some { BaseURL := "https://api.example.com"
                        DefaultContentType := ""
                        Timeout := 0, Attemps := 0, TLSCert := "" }))
        "users" = "https://api.example.comusers" :=
  ⟨(getURL_spec _ "httpfoo").1 (by decide),
   (getURL_spec _ "users").2 (by decide)⟩

end SimpleHTTP

namespace SimpleHTTP

/-- C6: the constant named `PATH` carries the wire value "POST", equal
to the `POST` constant; the five method constants have exactly the
four distinct wire values GET, POST, PUT, DELETE; and a request using
`PATH` submits the method string "POST". -/
theorem method_PATH_spec :
    PATH = POST ∧ PATH = ("POST" : HTTPMethod) ∧
    ([POST, GET, PUT, PATH, DELETE] : List String).dedup
      = ["GET", "PUT", "POST", "DELETE"] ∧
    (doSubmission (New none)
        { URL := "/x", Method := PATH, ContentType := "", Headers := [],
          Query := [], Body := "" }).request.method = "POST" :=
  ⟨rfl, rfl, by decide, rfl⟩

/-- C8: the response-header map is built by visiting every transport
header in order and assigning it into a map, so looking up any key
yields the value of the last-visited entry with that key (and `none`
exactly when the server never sent the key). -/
theorem mergeResponseHeaders_spec (hs : List (String × String)) (key : String) :
    mapLookup (mergeResponseHeaders hs) key
      = (hs.reverse.find? (fun kv => kv.1 == key)).map (fun kv => kv.2) := by
  rw [mergeResponseHeaders, mapLookup_foldl_mapInsert, mapLookup_nil,
    Option.or_none]

/-- C3: the content type submitted is `Request.ContentType` when
non-empty and the client default otherwise; `Request.Headers` entries
are applied afterwards, so an entry keyed by the content-type header
name overwrites the resolved content type (the last such entry
winning). -/
theorem do_content_type_spec {Ctx ε : Type} (ctx : Ctx) (h : Client)
    (opts : DoOptions) (entryNow endNow : Int)
    (transport : Submission → Except ε TransportResponse) :
    (Do ctx h opts entryNow endNow transport).submission.request.contentTypeHeader
      = ((opts.Request.Headers.reverse.find?
            (fun kv => kv.1 == "Content-Type")).map (fun kv => kv.2)).getD
          (if opts.Request.ContentType != "" then opts.Request.ContentType
           else h.contentType) := by
  rw [Do_submission, doSubmission]
  exact foldl_headerSet_contentType _ _

/-- C4: when the transport submission fails, `Do` returns the
transport's error value unchanged and never an `ok` response. -/
theorem do_transport_error_spec {Ctx ε : Type} (ctx : Ctx) (h : Client)
    (opts : DoOptions) (entryNow endNow : Int)
    (transport : Submission → Except ε TransportResponse) (e : ε)
    (herr : transport (doSubmission h opts.Request) = Except.error e) :
    (Do ctx h opts entryNow endNow transport).result = Except.error e ∧
    ∀ resp : Response,
      (Do ctx h opts entryNow endNow transport).result ≠ Except.ok resp := by
  have hres : (Do ctx h opts entryNow endNow transport).result
      = Except.error e := by
    unfold Do; simp [herr]
  exact ⟨hres, fun resp hc => by rw [hres] at hc; cases hc⟩

/-- C4 witness: with a transport that fails, `Do` surfaces exactly that
error. -/
theorem do_transport_error_spec_witness :
    (Do 0 (New none)
        { StartTime := none
          Request := { URL := "/x", Method := GET, ContentType := ""
                       Headers := [], Query := [], Body := "" } }
        0 0 (fun _ => (Except.error "boom" : Except String TransportResponse))
      ).result = Except.error "boom" :=
  (do_transport_error_spec 0 (New none) _ 0 0 _ "boom" rfl).1

/-- C7: the context parameter is inert: any two contexts (even of
different types) give identical transport submissions and results, and
the submitted timeout is always the client's configured timeout. -/
theorem do_context_inert {C1 C2 ε : Type} (ctx1 : C1) (ctx2 : C2) (h : Client)
    (opts : DoOptions) (entryNow endNow : Int)
    (transport : Submission → Except ε TransportResponse) :
    Do ctx1 h opts entryNow endNow transport
      = Do ctx2 h opts entryNow endNow transport ∧
    (Do ctx1 h opts entryNow endNow transport).submission.timeout = h.timeout := by
  refine ⟨rfl, ?_⟩
  rw [Do_submission, doSubmission]

/-- C10: `Do` writes the entry time into the caller's `DoOptions` when
`StartTime` is nil, and leaves the struct unchanged when `StartTime`
was supplied. -/
theorem do_start_time_mutation {Ctx ε : Type} (ctx : Ctx) (h : Client)
    (opts : DoOptions) (entryNow endNow : Int)
    (transport : Submission → Except ε TransportResponse) :
    (opts.StartTime = none →
      (Do ctx h opts entryNow endNow transport).optsAfter
        = { opts with StartTime := some entryNow }) ∧
    (∀ t : Int, opts.StartTime = some t →
      (Do ctx h opts entryNow endNow transport).optsAfter = opts) := by
  constructor
  · intro h0
    rw [Do_optsAfter, h0]
  · intro t ht
    rw [Do_optsAfter, ht]
    cases opts with
    | mk st req => cases ht; rfl

/-- C10 witness: a nil `StartTime` is replaced by the entry time; a
supplied `StartTime` leaves the options untouched. -/
theorem do_start_time_mutation_witness :
    (Do 0 (New none)
        { StartTime := none
          Request := { URL := "/x", Method := GET, ContentType := ""
                       Headers := [], Query := [], Body := "" } }
        77 99 (fun _ => (Except.error "e" : Except String TransportResponse))
      ).optsAfter
      = { StartTime := some 77
          Request := { URL := "/x", Method := GET, ContentType := ""
                       Headers := [], Query := [], Body := "" } } ∧
    (Do 0 (New none)
        { StartTime := some 5
          Request := { URL := "/x", Method := GET, ContentType := ""
                       Headers := [], Query := [], Body := "" } }
        77 99 (fun _ => (Except.error "e" : Except String TransportResponse))
      ).optsAfter
      = { StartTime := some 5
          Request := { URL := "/x", Method := GET, ContentType := ""
                       Headers := [], Query := [], Body := "" } } :=
  ⟨(do_start_time_mutation 0 (New none) _ 77 99 _).1 rfl,
   (do_start_time_mutation 0 (New none) _ 77 99 _).2 5 rfl⟩

/-- C9: an explicit options argument replaces the default configuration
wholesale: zero-valued fields carry through to the client unchanged,
and the documented defaults apply only when no argument is passed. -/
theorem new_options_wholesale (o : NewClientOptions) :
    ((o.DefaultContentType = "" → (New (some o)).contentType = "") ∧
     (o.Timeout = 0 → (New (some o)).timeout = 0) ∧
     (o.Attemps = 0 → (New (some o)).maxIdemponentCallAttempts = 0)) ∧
    ((New (some o)).contentType = o.DefaultContentType ∧
     (New (some o)).timeout = o.Timeout ∧
     (New (some o)).maxIdemponentCallAttempts = o.Attemps) ∧
    ((New none).contentType = "application/json" ∧
     (New none).timeout = 30 * 1000000000 ∧
     (New none).maxIdemponentCallAttempts = 5) := by
  refine ⟨⟨fun hz => ?_, fun hz => ?_, fun hz => ?_⟩,
    ⟨rfl, rfl, rfl⟩, ⟨rfl, rfl, rfl⟩⟩ <;> simp [New, hz]

/-- C9 witness: a zero-valued options struct produces a client with
empty content type, zero timeout and zero attempts. -/
theorem new_options_wholesale_witness :
    (New (some { BaseURL := "", DefaultContentType := "", Timeout := 0
                 Attemps := 0, TLSCert := "" })).contentType = "" ∧
    (New (some { BaseURL := "", DefaultContentType := "", Timeout := 0
                 Attemps := 0, TLSCert := "" })).timeout = 0 ∧
    (New (some { BaseURL := "", DefaultContentType := "", Timeout := 0
                 Attemps := 0, TLSCert := "" })).maxIdemponentCallAttempts = 0 :=
  ⟨(new_options_wholesale _).1.1 rfl, (new_options_wholesale _).1.2.1 rfl,
   (new_options_wholesale _).1.2.2 rfl⟩

end SimpleHTTP

namespace SimpleHTTP

lemma Do_result_ok {Ctx ε : Type} (ctx : Ctx) (h : Client) (opts : DoOptions)
    (entryNow endNow : Int)
    (transport : Submission → Except ε TransportResponse)
    (tres : TransportResponse)
    (hok : transport (doSubmission h opts.Request) = Except.ok tres) :
    (Do ctx h opts entryNow endNow transport).result
      = Except.ok
          { StatusCode := tres.statusCode
            Body := tres.body
            Headers := mergeResponseHeaders tres.headers
            Time := getResponseTime (opts.StartTime.getD entryNow) endNow } := by
  unfold Do
  simp only [hok]
  cases opts.StartTime <;> rfl

/-- C5 (amended): on success, `Response.Time` equals the millisecond
difference (truncated toward zero) between the effective start time —
the caller-supplied `StartTime` when present, else the entry time —
and the end time captured after the transport returns; it is
non-negative whenever that start time does not exceed the end time
(always the case when no `StartTime` is supplied), but a
caller-supplied `StartTime` later than completion yields a negative
`Time`. -/
theorem do_response_time_spec {Ctx ε : Type} (ctx : Ctx) (h : Client)
    (opts : DoOptions) (entryNow endNow : Int)
    (transport : Submission → Except ε TransportResponse)
    (tres : TransportResponse)
    (hok : transport (doSubmission h opts.Request) = Except.ok tres) :
    (Do ctx h opts entryNow endNow transport).result
      = Except.ok
          { StatusCode := tres.statusCode
            Body := tres.body
            Headers := mergeResponseHeaders tres.headers
            Time := getResponseTime (opts.StartTime.getD entryNow) endNow } ∧
    (opts.StartTime.getD entryNow ≤ endNow →
      0 ≤ getResponseTime (opts.StartTime.getD entryNow) endNow) := by
  refine ⟨Do_result_ok ctx h opts entryNow endNow transport tres hok, fun hle => ?_⟩
  rw [getResponseTime]
  exact Int.tdiv_nonneg (by omega) (by norm_num)

/-- C5 witness: a successful call with nil `StartTime`, entry time 0
and end time 5 ms yields `Time = 5 ≥ 0`. -/
theorem do_response_time_spec_witness :
    (Do 0 (New none)
        { StartTime := none
          Request := { URL := "/x", Method := GET, ContentType := ""
                       Headers := [], Query := [], Body := "" } }
        0 5000000
        (fun _ => (Except.ok { statusCode := 200, body := "ok", headers := [] }
          : Except String TransportResponse))).result
      = Except.ok
          { StatusCode := 200
            Body := "ok"
            Headers := mergeResponseHeaders []
            Time := getResponseTime ((none : Option Int).getD 0) 5000000 } ∧
    0 ≤ getResponseTime ((none : Option Int).getD 0) 5000000 :=
  ⟨(do_response_time_spec 0 (New none) _ 0 5000000 _ _ rfl).1,
   (do_response_time_spec 0 (New none)
      { StartTime := none
        Request := { URL := "/x", Method := GET, ContentType := ""
                     Headers := [], Query := [], Body := "" } }
      0 5000000
      (fun _ => (Except.ok { statusCode := 200, body := "ok", headers := [] }
        : Except String TransportResponse))
      { statusCode := 200, body := "ok", headers := [] } rfl).2 (by decide)⟩

/-- C5 counterexample: a caller-supplied `StartTime` (2 s) later than
the end time (1 s) makes a successful `Do` return `Response.Time =
-1000 < 0`, refuting "Time is always ≥ 0". -/
theorem do_response_time_counterexample :
    (Do 0 (New none)
        { StartTime := some 2000000000
          Request := { URL := "/x", Method := GET, ContentType := ""
                       Headers := [], Query := [], Body := "" } }
        0 1000000000
        (fun _ => (Except.ok { statusCode := 200, body := "", headers := [] }
          : Except String TransportResponse))).result
      = Except.ok
          { StatusCode := 200, Body := "", Headers := [], Time := -1000 } ∧
    (-1000 : Int) < 0 :=
  ⟨rfl, by decide⟩

end SimpleHTTP

namespace SimpleHTTP

lemma valuesAdd_of_not_mem {vs : List (String × List String)} {k : String}
    (hk : k ∉ vs.map Prod.fst) (v : String) :
    valuesAdd vs k v = vs ++ [(k, [v])] := by
  have hfind : vs.find? (fun kv => kv.1 == k) = none := by
    rw [List.find?_eq_none]
    intro kv hmem hbeq
    exact hk (List.mem_map.mpr ⟨kv, hmem, (beq_iff_eq.mp hbeq)⟩)
  rw [valuesAdd, hfind]
  rfl

lemma foldl_valuesAdd_eq (q : List (String × String))
    (acc : List (String × List String))
    (hnd : (acc.map Prod.fst ++ q.map Prod.fst).Nodup) :
    q.foldl (fun vs kv => valuesAdd vs kv.1 kv.2) acc
      = acc ++ q.map (fun kv => (kv.1, [kv.2])) := by
  induction q generalizing acc with
  | nil => simp
  | cons kv t ih =>
      have hk : kv.1 ∉ acc.map Prod.fst := by
        intro hmem
        have hdisj := (List.nodup_append.mp hnd).2.2
        exact hdisj hmem (List.mem_cons_self _ _)
      rw [List.foldl_cons, valuesAdd_of_not_mem hk]
      have hnd' : ((acc ++ [(kv.1, [kv.2])]).map Prod.fst
          ++ t.map Prod.fst).Nodup := by
        rw [List.map_append, List.append_assoc]
        simpa using hnd
      rw [ih _ hnd']
      simp

lemma buildValues_eq_of_nodup {q : List (String × String)}
    (hnd : (q.map Prod.fst).Nodup) :
    buildValues q = q.map (fun kv => (kv.1, [kv.2])) := by
  have := foldl_valuesAdd_eq q [] (by simpa using hnd)
  simpa [buildValues] using this

lemma valuesAdd_ne_nil (vs : List (String × List String)) (k v : String) :
    valuesAdd vs k v ≠ [] := by
  cases vs with
  | nil => simp [valuesAdd]
  | cons kv rest =>
      rw [valuesAdd]
      split <;> simp

lemma foldl_valuesAdd_ne_nil (q : List (String × String))
    (acc : List (String × List String)) (hacc : acc ≠ []) :
    q.foldl (fun vs kv => valuesAdd vs kv.1 kv.2) acc ≠ [] := by
  induction q generalizing acc with
  | nil => exact hacc
  | cons kv t ih => exact ih _ (valuesAdd_ne_nil acc kv.1 kv.2)

lemma buildValues_ne_nil {q : List (String × String)} (hq : q ≠ []) :
    buildValues q ≠ [] := by
  cases q with
  | nil => exact absurd rfl hq
  | cons kv t =>
      rw [buildValues, List.foldl_cons]
      exact foldl_valuesAdd_ne_nil t _ (valuesAdd_ne_nil [] kv.1 kv.2)

lemma sorted_keyLT_insertionSort {l : List (String × List String)}
    (hnd : (l.map Prod.fst).Nodup) :
    List.Pairwise keyLT (List.insertionSort keyLE l) := by
  have hperm := List.perm_insertionSort keyLE l
  have hnd' : ((List.insertionSort keyLE l).map Prod.fst).Nodup :=
    ((hperm.map Prod.fst).nodup_iff).mpr hnd
  have hne : List.Pairwise (fun a b : String × List String => a.1 ≠ b.1)
      (List.insertionSort keyLE l) := List.pairwise_map.mp hnd'
  have hle : List.Pairwise keyLE (List.insertionSort keyLE l) :=
    List.sorted_insertionSort keyLE l
  exact (hle.and hne).imp (fun hab => lt_of_le_of_ne hab.1 hab.2)

lemma insertionSort_eq_of_perm {l1 l2 : List (String × List String)}
    (hp : List.Perm l1 l2) (hnd : (l1.map Prod.fst).Nodup) :
    List.insertionSort keyLE l1 = List.insertionSort keyLE l2 := by
  have hnd2 : (l2.map Prod.fst).Nodup := ((hp.map Prod.fst).nodup_iff).mp hnd
  have hps : List.Perm (List.insertionSort keyLE l1) (List.insertionSort keyLE l2) :=
    (List.perm_insertionSort keyLE l1).trans
      (hp.trans (List.perm_insertionSort keyLE l2).symm)
  exact List.eq_of_perm_of_sorted hps
    (sorted_keyLT_insertionSort hnd) (sorted_keyLT_insertionSort hnd2)

end SimpleHTTP

namespace SimpleHTTP

lemma countQMark_append (a b : String) :
    countQMark (a ++ b) = countQMark a + countQMark b := by
  simp [countQMark, String.data_append, List.count_append]

set_option maxRecDepth 4096 in
lemma countQMark_escapeQueryByte {b : Nat} (hb : b < 256) :
    countQMark (escapeQueryByte b) = 0 := by
  revert hb
  revert b
  decide

lemma countQMark_queryEscape (s : String) : countQMark (queryEscape s) = 0 := by
  have haux : ∀ (l : List Nat) (acc : String), (∀ b ∈ l, b < 256) →
      countQMark (l.foldl (fun acc b => acc ++ escapeQueryByte b) acc)
        = countQMark acc := by
    intro l
    induction l with
    | nil => intro acc _; rfl
    | cons b t ih =>
        intro acc hb
        rw [List.foldl_cons, ih _ (fun x hx => hb x (List.mem_cons_of_mem _ hx)),
          countQMark_append,
          countQMark_escapeQueryByte (hb b (List.mem_cons_self _ _))]
        omega
  have hbytes : ∀ b ∈ utf8Bytes s, b < 256 := by
    intro b hb
    rcases List.mem_map.mp hb with ⟨u, _, rfl⟩
    calc u.toNat < 2 ^ 8 := UInt8.toNat_lt u
    _ = 256 := by norm_num
  rw [queryEscape, haux _ _ hbytes]
  rfl

lemma countQMark_joinSep {l : List String}
    (hl : ∀ x ∈ l, countQMark x = 0) : countQMark (joinSep "&" l) = 0 := by
  induction l with
  | nil => rfl
  | cons a t ih =>
      cases t with
      | nil => exact hl a (List.mem_cons_self _ _)
      | cons b t2 =>
          rw [joinSep, countQMark_append, countQMark_append,
            hl a (List.mem_cons_self _ _),
            ih (fun x hx => hl x (List.mem_cons_of_mem _ hx))]
          rfl

lemma countQMark_valuesEncode (vs : List (String × List String)) :
    countQMark (valuesEncode vs) = 0 := by
  rw [valuesEncode]
  apply countQMark_joinSep
  intro x hx
  rcases List.mem_flatMap.mp hx with ⟨kv, _, hmem⟩
  rcases List.mem_map.mp hmem with ⟨v, _, rfl⟩
  rw [countQMark_append, countQMark_append, countQMark_queryEscape,
    countQMark_queryEscape]
  rfl

lemma flatMap_encode_eq (vs : List (String × List String)) :
    vs.flatMap (fun kv => kv.2.map (fun v => queryEscape kv.1 ++ "=" ++ queryEscape v))
      = (vs.flatMap (fun kv => kv.2.map (fun v => (kv.1, v)))).map encodedPair := by
  rw [List.map_flatMap]
  apply List.flatMap_congr
  intro kv _
  rw [List.map_map]
  rfl

lemma valuesEncode_eq_pairs (vs : List (String × List String)) :
    valuesEncode vs
      = joinSep "&" (((List.insertionSort keyLE vs).flatMap
          (fun kv => kv.2.map (fun v => (kv.1, v)))).map encodedPair) := by
  rw [valuesEncode, flatMap_encode_eq]

end SimpleHTTP

namespace SimpleHTTP

lemma sortedQueryPairs_perm {q : List (String × String)}
    (hnd : (q.map Prod.fst).Nodup) :
    List.Perm (sortedQueryPairs q) q := by
  rw [sortedQueryPairs, buildValues_eq_of_nodup hnd]
  have hperm := List.perm_insertionSort keyLE (q.map (fun kv => (kv.1, [kv.2])))
  have h1 := hperm.flatMap_right (fun kv => kv.2.map (fun v => (kv.1, v)))
  have h2 : (q.map (fun kv => (kv.1, [kv.2]))).flatMap
      (fun kv => kv.2.map (fun v => (kv.1, v))) = q := by
    rw [List.flatMap_map]
    simp
  rw [h2] at h1
  exact h1

lemma map_fst_map_single (q : List (String × String)) :
    ((q.map (fun kv => (kv.1, [kv.2]))).map Prod.fst) = q.map Prod.fst := by
  rw [List.map_map]
  rfl

lemma doFinalURL_of_ne_nil {h : Client} {rURL : String}
    {q : List (String × String)} (hq : q ≠ []) :
    doFinalURL h rURL q
      = getURL h rURL ++ "?" ++ valuesEncode (buildValues q) := by
  have hlen : 0 < (buildValues q).length :=
    List.length_pos.mpr (buildValues_ne_nil hq)
  simp [doFinalURL, hlen]

lemma doFinalURL_perm {h : Client} {rURL : String} {q q' : List (String × String)}
    (hp : List.Perm q' q) (hnd : (q.map Prod.fst).Nodup) :
    doFinalURL h rURL q' = doFinalURL h rURL q := by
  have hnd' : (q'.map Prod.fst).Nodup := ((hp.map Prod.fst).nodup_iff).mpr hnd
  have hsort : List.insertionSort keyLE (buildValues q')
      = List.insertionSort keyLE (buildValues q) := by
    rw [buildValues_eq_of_nodup hnd, buildValues_eq_of_nodup hnd']
    apply insertionSort_eq_of_perm (hp.map _)
    rw [map_fst_map_single]
    exact hnd'
  have henc : valuesEncode (buildValues q') = valuesEncode (buildValues q) := by
    rw [valuesEncode, valuesEncode, hsort]
  have hlen : (buildValues q').length = (buildValues q).length := by
    rw [buildValues_eq_of_nodup hnd, buildValues_eq_of_nodup hnd',
      List.length_map, List.length_map, hp.length_eq]
  simp only [doFinalURL, hlen, henc]

lemma Do_uri {Ctx ε : Type} (ctx : Ctx) (h : Client) (opts : DoOptions)
    (entryNow endNow : Int)
    (transport : Submission → Except ε TransportResponse) :
    (Do ctx h opts entryNow endNow transport).submission.request.uri
      = doFinalURL h opts.Request.URL opts.Request.Query := by
  rw [Do_submission, doSubmission]
  exact foldl_headerSet_uri _ _

end SimpleHTTP

namespace SimpleHTTP

/-- C2: with a non-empty query map (distinct keys, as a Go map has),
`Do` submits the resolved URL followed by a single "?" and the
percent-encoded query: the encoded part is the "&"-join of
`escapedKey=escapedValue` pieces over a permutation of the query pairs
(each pair appearing exactly once), the final URL is independent of the
map iteration order, and the "?" is appended with no check of the
resolved URL, so the submitted URL carries exactly one more "?" than
`getURL` produced — two separators when the request URL already embeds
its own query string. -/
theorem do_query_url_spec {Ctx ε : Type} (ctx : Ctx) (h : Client)
    (opts : DoOptions) (entryNow endNow : Int)
    (transport : Submission → Except ε TransportResponse)
    (hne : opts.Request.Query ≠ [])
    (hnd : (opts.Request.Query.map Prod.fst).Nodup) :
    (Do ctx h opts entryNow endNow transport).submission.request.uri
      = getURL h opts.Request.URL ++ "?"
          ++ valuesEncode (buildValues opts.Request.Query) ∧
    valuesEncode (buildValues opts.Request.Query)
      = joinSep "&" ((sortedQueryPairs opts.Request.Query).map encodedPair) ∧
    List.Perm (sortedQueryPairs opts.Request.Query) opts.Request.Query ∧
    (∀ q', List.Perm q' opts.Request.Query →
      doFinalURL h opts.Request.URL q'
        = doFinalURL h opts.Request.URL opts.Request.Query) ∧
    countQMark ((Do ctx h opts entryNow endNow transport).submission.request.uri)
      = countQMark (getURL h opts.Request.URL) + 1 := by
  have huri : (Do ctx h opts entryNow endNow transport).submission.request.uri
      = getURL h opts.Request.URL ++ "?"
        ++ valuesEncode (buildValues opts.Request.Query) := by
    rw [Do_uri, doFinalURL_of_ne_nil hne]
  refine ⟨huri, ?_, sortedQueryPairs_perm hnd,
    fun q' hq' => doFinalURL_perm hq' hnd, ?_⟩
  · rw [valuesEncode_eq_pairs]
    rfl
  · rw [huri, countQMark_append, countQMark_append, countQMark_valuesEncode]
    have hq : countQMark "?" = 1 := rfl
    omega

/-- C2 witness: a two-pair query on a relative URL is submitted as the
resolved URL, one "?", and the encoded query. -/
theorem do_query_url_spec_witness :
    (Do 0 (New none)
        { StartTime := none
          Request := { URL := "/x", Method := GET, ContentType := ""
                       Headers := [], Query := [("b", "2"), ("a", "1")]
                       Body := "" } }
        0 0 (fun _ => (Except.error "e" : Except String TransportResponse))
      ).submission.request.uri
      = getURL (New none) "/x" ++ "?"
          ++ valuesEncode (buildValues [("b", "2"), ("a", "1")]) :=
  (do_query_url_spec 0 (New none)
      { StartTime := none
        Request := { URL := "/x", Method := GET, ContentType := ""
                     Headers := [], Query := [("b", "2"), ("a", "1")]
                     Body := "" } }
      0 0 (fun _ => (Except.error "e" : Except String TransportResponse))
      (by decide) (by decide)).1

/-- Concrete check of the URL builder against Go's behaviour: query
keys are sorted, values are escaped (space to `+`), and a request URL
that already embeds a query string gets a second "?". -/
lemma doFinalURL_concrete :
    doFinalURL (New none) "/x?a=1" [("b", "2 c")] = "/x?a=1?b=2+c" := by decide

end SimpleHTTP
